import Mathlib

/-!
Verification of the mindcraft-ce broker (`mindcraft_andy_api/server_api/main.py`)
against its natural-language specification.

The Python source is shallowly embedded below.  Strings are modelled as
`List Char` (written `Str`), JSON objects as Lean structures whose optional
fields model absent keys, the in-memory provider registry as a list of
provider records plus the id counter, and each outbound network call as an
explicit outcome parameter (success body / request exception / other
exception), mirroring the `try`/`except` structure of the source.
-/

namespace Andy

/-- Python strings are modelled as lists of characters. -/
abbrev Str := List Char

/-! ## Response sanitizer (`strip_think_blocks`, main.py lines 117-119)

The source is `re.sub(r"<think>.*?</think>", "", text, flags=re.DOTALL).strip()`.
`re.sub` scans left to right: it finds the leftmost occurrence of the literal
`<think>`, extends non-greedily to the first following `</think>`, deletes
that span, and resumes scanning after the deleted span.  `subThinkAux`
implements exactly that; the fuel argument only bounds the number of
deletions, and `s.length + 1` is sufficient because every deletion removes at
least the two markers (15 characters), so at most `s.length` deletions can
ever happen and the fuel-0 branch is unreachable from `subThink`. -/

/-- Whitespace characters removed by Python's `str.strip()` (ASCII range). -/
def isPySpace (c : Char) : Bool :=
  c = ' ' ∨ c = '\t' ∨ c = '\n' ∨ c = '\r' ∨ c = '\x0b' ∨ c = '\x0c'

/-- Python `str.strip()`: drop leading and trailing whitespace. -/
def pyStrip (s : Str) : Str :=
  ((s.dropWhile isPySpace).reverse.dropWhile isPySpace).reverse

/-- Split a string at the first occurrence of `pat`, returning the part
before the occurrence and the part after it. `none` when `pat` does not
occur. -/
def splitOnFirst (pat : Str) : Str → Option (Str × Str)
  | [] => if pat = [] then some ([], []) else none
  | c :: rest =>
    if pat.isPrefixOf (c :: rest) then some ([], (c :: rest).drop pat.length)
    else
      match splitOnFirst pat rest with
      | none => none
      | some (pre, suf) => some (c :: pre, suf)

/-- The opening reasoning marker of the source regex. -/
def openTag : Str := "<think>".data

/-- The closing reasoning marker of the source regex. -/
def closeTag : Str := "</think>".data

/-- One deletion pass per fuel unit: delete the leftmost
`<think>`…`</think>` span (non-greedy) and continue after it. -/
def subThinkAux : Nat → Str → Str
  | 0, s => s
  | fuel + 1, s =>
    match splitOnFirst openTag s with
    | none => s
    | some (pre, rest) =>
      match splitOnFirst closeTag rest with
      | none => s
      | some (_, suf) => pre ++ subThinkAux fuel suf

/-- `re.sub(r"<think>.*?</think>", "", s, flags=re.DOTALL)`. -/
def subThink (s : Str) : Str := subThinkAux (s.length + 1) s

/-- `strip_think_blocks` from main.py: remove every `<think>`…`</think>`
block, then trim surrounding whitespace. -/
def strip_think_blocks (t : Str) : Str := pyStrip (subThink t)

/-! ## Data model (provider registry) -/

/-- A model descriptor as stored in a registered provider record
(name known to be a string after registration validation; `details` is the
opaque detail mapping). -/
structure ModelInfo where
  name : Str
  details : List (Str × Str)
deriving DecidableEq

/-- A registered compute provider (one entry of `compute_providers`). -/
structure Provider where
  id : Str
  ollama_base_url : Str
  models : List ModelInfo
  gpu_info : Option Str
  vram_gb : Option Int
  max_clients : Nat
  current_load : Nat
deriving DecidableEq

/-- A model entry in a join request: the `name` key may be absent. -/
structure MEntry where
  name : Option Str
  details : List (Str × Str)
deriving DecidableEq

/-- A join-pool request body; `none` models an absent JSON key.
`vram_gb` and `max_clients` are modelled as integers (the spec's examples
are integers, and the source compares them only with integer literals). -/
structure JoinReq where
  ollama_base_url : Option Str
  models : Option (List MEntry)
  gpu_info : Option Str
  vram_gb : Option Int
  max_clients : Option Int
deriving DecidableEq

/-- The registry state: the `compute_providers` map in insertion order plus
the `provider_counter`. -/
structure RegistryState where
  providers : List Provider
  counter : Nat
deriving DecidableEq

/-! ## Provider ids (`generate_provider_id`, main.py lines 32-35) -/

/-- Decimal digit character, `48 + d` is the ASCII code of digit `d`. -/
def digitChar (d : Nat) : Char := Char.ofNat (48 + d)

/-- Numeric value of a digit character. -/
def digitVal (c : Char) : Nat := c.toNat - 48

/-- Decimal digits of `n`, most significant first; the fuel only bounds the
recursion depth and `n + 1` always suffices since `n / 10 < n` for `n ≥ 10`. -/
def natDigitsAux : Nat → Nat → Str
  | 0, _ => []
  | fuel + 1, n =>
    if n < 10 then [digitChar n]
    else natDigitsAux fuel (n / 10) ++ [digitChar (n % 10)]

/-- Decimal representation of a natural number, as in Python string
formatting of the counter. -/
def natDigits (n : Nat) : Str := natDigitsAux (n + 1) n

/-- Decimal value of a digit string, most significant first (used to show
the decimal representation is injective). -/
def digitsVal (l : Str) : Nat := l.foldl (fun a c => 10 * a + digitVal c) 0

/-- `generate_provider_id` after the counter was bumped to `n`:
the Python f-string that prepends the text provider_ to the decimal counter. -/
def generate_provider_id (n : Nat) : Str := "provider_".data ++ natDigits n

/-! ## Capacity resolution and registration (`join_pool`, main.py 128-177) -/

/-- The tiered capacity default by VRAM (the `elif vram_gb and vram_gb >= …`
chain); `vram_gb` equal to `0` is falsy in Python, hence the `v ≠ 0` tests. -/
def vramTier (vram : Option Int) : Nat :=
  match vram with
  | none => 1
  | some v =>
    if v ≠ 0 ∧ 16 ≤ v then 8
    else if v ≠ 0 ∧ 8 ≤ v then 4
    else if v ≠ 0 ∧ 4 ≤ v then 2
    else 1

/-- Capacity resolution: a user-supplied positive integer wins, otherwise
the VRAM tier applies. -/
def resolve_max_clients (mcu vram : Option Int) : Nat :=
  match mcu with
  | some m => if 0 < m then m.toNat else vramTier vram
  | none => vramTier vram

/-- `join_pool`: validation (required falsy check, URL scheme check, model
entry structure check, in source order), then id generation, capacity
resolution and insertion of the new provider record with zero load. -/
def join_pool (st : RegistryState) (req : JoinReq) : RegistryState × Except Str Str :=
  if ((match req.ollama_base_url with | none => true | some u => u.isEmpty) ||
      (match req.models with | none => true | some ms => ms.isEmpty)) = true then
    (st, Except.error "ollama_base_url and models are required".data)
  else if ("http://".data.isPrefixOf (req.ollama_base_url.getD []) ||
           "https://".data.isPrefixOf (req.ollama_base_url.getD [])) = false then
    (st, Except.error "ollama_base_url must start with http:// or https://".data)
  else if ((req.models.getD []).all (fun m => m.name.isSome)) = false then
    (st, Except.error "models must be a list of objects, each with at least a name".data)
  else
    ({ providers := st.providers ++
        [{ id := generate_provider_id (st.counter + 1)
         , ollama_base_url := req.ollama_base_url.getD []
         , models := (req.models.getD []).map
             (fun m => { name := m.name.getD [], details := m.details })
         , gpu_info := req.gpu_info
         , vram_gb := req.vram_gb
         , max_clients := resolve_max_clients req.max_clients req.vram_gb
         , current_load := 0 }]
     , counter := st.counter + 1 }
    , Except.ok (generate_provider_id (st.counter + 1)))

/-- The inputs the specification says registration must reject: absent or
empty or non-`http(s)`-scheme base URL, absent or empty model list, or a
model entry without a name. -/
def badJoinInput (req : JoinReq) : Bool :=
  (match req.ollama_base_url with | none => true | some u => u.isEmpty) ||
  (match req.models with | none => true | some ms => ms.isEmpty) ||
  !("http://".data.isPrefixOf (req.ollama_base_url.getD []) ||
    "https://".data.isPrefixOf (req.ollama_base_url.getD [])) ||
  !((req.models.getD []).all (fun m => m.name.isSome))

/-! ## Model catalog (`get_available_models`, main.py lines 179-200) -/

/-- One entry of the `all_models_summary` mapping, in insertion order. -/
structure ModelSummary where
  name : Str
  providers_available : Nat
  details : List (Str × Str)
deriving DecidableEq

/-- Process one model of an under-capacity provider: skip falsy names,
increment an existing per-name entry, or append a fresh entry recording this
model's details. -/
def bumpModel (acc : List ModelSummary) (m : ModelInfo) : List ModelSummary :=
  if m.name.isEmpty then acc
  else if acc.any (fun s => s.name = m.name) then
    acc.map (fun s =>
      if s.name = m.name then
        { s with providers_available := s.providers_available + 1 }
      else s)
  else
    acc ++ [{ name := m.name, providers_available := 1, details := m.details }]

/-- Process one provider: its models count only when the provider's current
load is strictly below its capacity. -/
def gamStep (acc : List ModelSummary) (p : Provider) : List ModelSummary :=
  if p.current_load < p.max_clients then p.models.foldl bumpModel acc else acc

/-- `get_available_models`: fold the catalog over the registry in insertion
order. -/
def get_available_models (ps : List Provider) : List ModelSummary :=
  ps.foldl gamStep []

/-! ## Router/Matcher (`completions` selection loop, main.py lines 216-245) -/

/-- `s.split(":")[0]`: the part of a name before the first colon. -/
def baseOf (s : Str) : Str := s.takeWhile (fun c => c ≠ ':')

/-- Python `":" in s`. -/
def hasColon (s : Str) : Bool := s.any (fun c => c = ':')

/-- A provider with spare capacity (the selection loop's `continue` filter,
negated). -/
def eligibleP (p : Provider) : Bool :=
  decide (p.current_load < p.max_clients)

/-- Whether a provider offers an exact-name match for the request. -/
def hasExact (req : Str) (p : Provider) : Bool :=
  p.models.any (fun m => decide (m.name = req))

/-- The inner model scan of the selection loop: an exact name match at
level below 2 selects the provider at level 2 and breaks; otherwise a
base-name match at level 0 selects at level 1 and the scan
continues. -/
def scanModels (req : Str) (p : Provider) :
    List ModelInfo → Nat → Option Provider → Nat × Option Provider
  | [], best, sel => (best, sel)
  | m :: rest, best, sel =>
    if m.name = req ∧ best < 2 then (2, some p)
    else if hasColon req = true ∧ (baseOf req).isPrefixOf m.name = true ∧ best < 1 then
      scanModels req p rest 1 (some p)
    else if hasColon req = false ∧ req.isPrefixOf m.name = true ∧ best < 1 then
      scanModels req p rest 1 (some p)
    else
      scanModels req p rest best sel

/-- The outer provider loop: skip providers at or over capacity, scan the
models of the rest, and stop as soon as the best level reaches 2. -/
def selectLoop (req : Str) : List Provider → Nat → Option Provider → Nat × Option Provider
  | [], best, sel => (best, sel)
  | p :: rest, best, sel =>
    if p.max_clients ≤ p.current_load then selectLoop req rest best sel
    else if (scanModels req p p.models best sel).1 = 2 then
      scanModels req p p.models best sel
    else
      selectLoop req rest (scanModels req p p.models best sel).1
        (scanModels req p p.models best sel).2

/-- Strict comparison of load ratios `load / max_clients` by cross
multiplication; for the positive integer capacities the registry stores this
is the same order the source's float division induces. -/
def ratioLtB (p q : Provider) : Bool :=
  decide (p.current_load * q.max_clients < q.current_load * p.max_clients)

/-- Stable insertion of a provider into a ratio-ranked list: the new element
goes after every element whose ratio is not strictly greater. -/
def insertRanked (p : Provider) : List Provider → List Provider
  | [] => [p]
  | q :: rest => if ratioLtB p q then p :: q :: rest else q :: insertRanked p rest

/-- Python's stable `sorted(..., key=load ratio)` over the registry in
insertion order. -/
def rankProviders (ps : List Provider) : List Provider :=
  ps.foldl (fun acc p => insertRanked p acc) []

/-- The whole matcher: rank by load ratio, then run the selection loop with
level 0 and no selection. -/
def select_provider (req : Str) (ps : List Provider) : Nat × Option Provider :=
  selectLoop req (rankProviders ps) 0 none

/-! ## Outbound payload (`completions`, main.py lines 257-269) -/

/-- The keys of the outbound Ollama payload dictionary. -/
inductive PKey
  | model
  | prompt
  | stream
  | options
  | system
  | template
  | context
  | format
deriving DecidableEq

/-- Payload values: strings, the stream flag, the opaque options mapping,
and the opaque context array. -/
inductive PVal
  | str (s : Str)
  | bool (b : Bool)
  | opts (o : List (Str × Str))
  | ctx (c : List Int)
deriving DecidableEq

/-- A completions request body; `none` models an absent JSON key. -/
structure CompReq where
  prompt : Str
  model : Str
  stream : Option Bool
  options : Option (List (Str × Str))
  system : Option Str
  template : Option Str
  context : Option (List Int)
  format : Option Str
deriving DecidableEq

/-- The payload dictionary exactly as first built: `stream` defaults to
`False` and `options` to the empty dict (both non-`None`), the other
optional fields stay `None` when absent. -/
def rawOllamaPayload (d : CompReq) : List (PKey × Option PVal) :=
  [(PKey.model, some (PVal.str d.model)),
   (PKey.prompt, some (PVal.str d.prompt)),
   (PKey.stream, some (PVal.bool (d.stream.getD false))),
   (PKey.options, some (PVal.opts (d.options.getD []))),
   (PKey.system, d.system.map PVal.str),
   (PKey.template, d.template.map PVal.str),
   (PKey.context, d.context.map PVal.ctx),
   (PKey.format, d.format.map PVal.str)]

/-- The dict comprehension of the source that keeps exactly the payload
entries whose value is not None. -/
def ollama_payload (d : CompReq) : List (PKey × PVal) :=
  (rawOllamaPayload d).filterMap (fun kv => kv.2.map (fun v => (kv.1, v)))

/-! ## Fallback client (`call_pollinations_api`, main.py lines 37-114) -/

/-- The hardcoded unset placeholder for the credential. -/
def placeholderKey : Str := "YOUR_POLLINATIONS_API_KEY_HERE".data

/-- `find_pollinations_api_key`: the environment variable, defaulting to the
placeholder when unset. -/
def find_pollinations_api_key (env : Option Str) : Str :=
  env.getD placeholderKey

/-- The recognized response shapes of the fallback service, in the order the
source tries them, plus the unrecognized-shape case. -/
inductive RespShape
  | completionField (t : Str)
  | choicesText (t : Str)
  | dataCompletion (t : Str)
  | dataText (t : Str)
  | unknownShape (raw : Str)
deriving DecidableEq

/-- Outcome of the outbound fallback HTTP call. -/
inductive PollNet
  | ok (shape : RespShape) (status : Nat)
  | httpError (status : Nat) (detail : Str)
  | netError (msg : Str)
deriving DecidableEq

/-- A normalized fallback result: a response dict (success or error) paired
with a status code; `source` is `none` for the configuration error, which
the source returns without a `source` field. -/
inductive PRes
  | success (text : Str) (source : Str) (status : Nat)
  | failure (msg : Str) (source : Option Str) (status : Nat)
deriving DecidableEq

/-- The record of the outbound call the fallback client issues. -/
structure OutboundCall where
  model : Str
  prompt : Str
deriving DecidableEq

/-- Normalization of a successful fallback response body: every recognized
extractor yields its text with source `pollinations`; an unrecognized body
is returned whole, flagged, and is not an error. -/
def normalizePoll (shape : RespShape) (status : Nat) : PRes :=
  match shape with
  | .completionField t => .success t "pollinations".data status
  | .choicesText t => .success t "pollinations".data status
  | .dataCompletion t => .success t "pollinations".data status
  | .dataText t => .success t "pollinations".data status
  | .unknownShape raw => .success raw "pollinations_unknown_structure".data status

/-- `call_pollinations_api`: refuse with a 503 configuration error before
any outbound call when the credential is the placeholder; otherwise issue
the call with the model name cut at the first colon and normalize the
outcome (upstream HTTP failures keep their status, transport failures
become 500). -/
def call_pollinations_api (env : Option Str) (prompt model : Str) (net : PollNet) :
    Option OutboundCall × PRes :=
  if find_pollinations_api_key env = placeholderKey then
    (none, .failure "Pollinations API key not configured".data none 503)
  else
    (some { model := if hasColon model then baseOf model else model, prompt := prompt },
     match net with
     | .ok shape status => normalizePoll shape status
     | .httpError status detail => .failure detail (some "pollinations".data) status
     | .netError msg => .failure msg (some "pollinations".data) 500)

/-! ## Dispatcher (`completions`, main.py lines 247-320) -/

/-- A provider backend response body: the optional `response` string field
the sanitizer rewrites, plus the other fields passed through opaquely. -/
structure CompletionBody where
  response : Option Str
  rest : List (Str × Str)
deriving DecidableEq

/-- Outcome of the outbound call to the chosen provider's backend:
`requestExc` covers network errors, timeouts and non-success statuses
(`requests.exceptions.RequestException`), `otherExc` any other exception. -/
inductive ProviderNet
  | ok (body : CompletionBody) (status : Nat)
  | requestExc (msg : Str)
  | otherExc (msg : Str)
deriving DecidableEq

/-- What the caller receives: the provider's body passed through, or the
fallback client's normalized result. -/
inductive CompResponse
  | fromProvider (body : CompletionBody) (status : Nat)
  | fromFallback (r : PRes)
deriving DecidableEq

/-- Sanitize the `response` field of a provider body when it is a string. -/
def sanitizeBody (b : CompletionBody) : CompletionBody :=
  match b.response with
  | some s => { b with response := some (strip_think_blocks s) }
  | none => b

/-- Sanitize the `response` field of a fallback result (the error shape has
no `response` field and is left alone). -/
def sanitizePoll (r : PRes) : PRes :=
  match r with
  | .success t src st => .success (strip_think_blocks t) src st
  | .failure m src st => .failure m src st

/-- One dispatch attempt to a matched provider: acquire a load slot, make
the backend call, and on the success path release the slot and pass the
sanitized body through, while on either exception path release the slot and
hand the request to the fallback client (the exception itself reaches
nobody). -/
def dispatch_to_provider (p : Provider) (net : ProviderNet)
    (env : Option Str) (prompt model : Str) (pnet : PollNet) :
    Provider × CompResponse :=
  let p1 : Provider := { p with current_load := p.current_load + 1 }
  match net with
  | .ok body status =>
    ({ p1 with current_load := p1.current_load - 1 },
     .fromProvider (sanitizeBody body) status)
  | .requestExc _ =>
    ({ p1 with current_load := p1.current_load - 1 },
     .fromFallback (sanitizePoll (call_pollinations_api env prompt model pnet).2))
  | .otherExc _ =>
    ({ p1 with current_load := p1.current_load - 1 },
     .fromFallback (sanitizePoll (call_pollinations_api env prompt model pnet).2))

/-! ## Concrete inputs used by the claims -/

/-- Provider P1 of the spec's matcher example: load 1, capacity 4, offering
the exact name `A:tag`. -/
def exP1 : Provider :=
  { id := "provider_1".data
  , ollama_base_url := "http://a".data
  , models := [{ name := "A:tag".data, details := [] }]
  , gpu_info := none
  , vram_gb := none
  , max_clients := 4
  , current_load := 1 }

/-- Provider P2 of the spec's matcher example: load 0, capacity 4, offering
only `A:tag2`. -/
def exP2 : Provider :=
  { id := "provider_2".data
  , ollama_base_url := "http://b".data
  , models := [{ name := "A:tag2".data, details := [] }]
  , gpu_info := none
  , vram_gb := none
  , max_clients := 4
  , current_load := 0 }

/-- The empty registry. -/
def regEmpty : RegistryState := { providers := [], counter := 0 }

/-- A join request that passes validation (vram 20, no explicit capacity). -/
def goodReq : JoinReq :=
  { ollama_base_url := some "http://x".data
  , models := some [{ name := some "A:tag".data, details := [] }]
  , gpu_info := none
  , vram_gb := some 20
  , max_clients := none }

/-- A join request with both required fields absent. -/
def badReq : JoinReq :=
  { ollama_base_url := none
  , models := none
  , gpu_info := none
  , vram_gb := none
  , max_clients := none }

/-- An at-capacity provider offering `A:tag` (details v3). -/
def pOver : Provider :=
  { exP1 with
      id := "provider_3".data
    , current_load := 4
    , models := [{ name := "A:tag".data, details := [("k".data, "v3".data)] }] }

/-- An under-capacity provider offering `A:tag` (details v1). -/
def pEl1 : Provider :=
  { exP1 with models := [{ name := "A:tag".data, details := [("k".data, "v1".data)] }] }

/-- A second under-capacity provider offering `A:tag` (details v2). -/
def pEl2 : Provider :=
  { exP2 with models := [{ name := "A:tag".data, details := [("k".data, "v2".data)] }] }

/-- An under-capacity provider listing the name `A:tag` twice. -/
def pDup : Provider :=
  { exP2 with models :=
      [ { name := "A:tag".data, details := [("k".data, "v1".data)] }
      , { name := "A:tag".data, details := [("k".data, "v2".data)] } ] }

/-- An under-capacity provider whose only model matches `A:tag` at base-name
level but not exactly. -/
def pPre : Provider :=
  { exP2 with models := [{ name := "A:other".data, details := [] }] }

/-- A completions request for model `A:tag` with every optional field
absent. -/
def reqNoOpts : CompReq :=
  { prompt := "p".data
  , model := "A:tag".data
  , stream := none
  , options := none
  , system := none
  , template := none
  , context := none
  , format := none }

/-! ## Helper lemmas: Python `strip` -/

theorem dropWhile_dropWhile_eq (p : Char → Bool) (l : Str) :
    List.dropWhile p (List.dropWhile p l) = List.dropWhile p l := by
  induction l with
  | nil => rfl
  | cons c t ih =>
    by_cases h : p c
    · rw [List.dropWhile_cons, if_pos h]; exact ih
    · rw [List.dropWhile_cons, if_neg h, List.dropWhile_cons, if_neg h]

theorem dropWhile_exists_append (p : Char → Bool) (l : Str) :
    ∃ u, u ++ List.dropWhile p l = l := by
  induction l with
  | nil => exact ⟨[], rfl⟩
  | cons c t ih =>
    by_cases h : p c
    · obtain ⟨u, hu⟩ := ih
      exact ⟨c :: u, by rw [List.dropWhile_cons, if_pos h, List.cons_append, hu]⟩
    · exact ⟨[], by rw [List.dropWhile_cons, if_neg h, List.nil_append]⟩

theorem dropWhile_cons_fixed (p : Char → Bool) (c : Char) (t : Str)
    (h : List.dropWhile p (c :: t) = c :: t) : p c = false := by
  by_cases hc : p c = true
  · rw [List.dropWhile_cons, if_pos hc] at h
    have hlen := congrArg List.length h
    have hle := (List.dropWhile_sublist (l := t) (p := p)).length_le
    simp only [List.length_cons] at hlen
    omega
  · simpa using hc

theorem pyStrip_fixed_of_fixed (l : Str)
    (hl : List.dropWhile isPySpace l = l) :
    List.dropWhile isPySpace (List.dropWhile isPySpace l.reverse).reverse
      = (List.dropWhile isPySpace l.reverse).reverse := by
  cases hbr : (List.dropWhile isPySpace l.reverse).reverse with
  | nil => simp
  | cons c t =>
    obtain ⟨u, hu⟩ := dropWhile_exists_append isPySpace l.reverse
    have hl2 : l = (List.dropWhile isPySpace l.reverse).reverse ++ u.reverse := by
      have h := congrArg List.reverse hu
      rw [List.reverse_append, List.reverse_reverse] at h
      exact h.symm
    rw [hbr] at hl2
    have hc : isPySpace c = false := by
      apply dropWhile_cons_fixed isPySpace c (t ++ u.reverse)
      rw [← List.cons_append, ← hl2]
      exact hl
    rw [List.dropWhile_cons, if_neg (by simp [hc])]

theorem pyStrip_idem (x : Str) : pyStrip (pyStrip x) = pyStrip x := by
  have hxa : List.dropWhile isPySpace (List.dropWhile isPySpace x)
      = List.dropWhile isPySpace x := dropWhile_dropWhile_eq _ _
  have hmid : List.dropWhile isPySpace (pyStrip x) = pyStrip x :=
    pyStrip_fixed_of_fixed _ hxa
  have hb : List.dropWhile isPySpace ((pyStrip x).reverse) = (pyStrip x).reverse := by
    unfold pyStrip
    simp only [List.reverse_reverse]
    exact dropWhile_dropWhile_eq _ _
  calc pyStrip (pyStrip x)
      = ((List.dropWhile isPySpace (pyStrip x)).reverse.dropWhile isPySpace).reverse := rfl
    _ = ((pyStrip x).reverse.dropWhile isPySpace).reverse := by rw [hmid]
    _ = ((pyStrip x).reverse).reverse := by rw [hb]
    _ = pyStrip x := List.reverse_reverse _

/-! ## Helper lemmas: decimal ids -/

theorem digitVal_digitChar (d : Nat) (h : d < 10) :
    digitVal (digitChar d) = d := by
  interval_cases d <;> decide

theorem digitsVal_append_digit (l : Str) (c : Char) :
    digitsVal (l ++ [c]) = 10 * digitsVal l + digitVal c := by
  simp [digitsVal, List.foldl_append]

theorem natDigitsAux_val : ∀ fuel n, n < fuel →
    digitsVal (natDigitsAux fuel n) = n := by
  intro fuel
  induction fuel with
  | zero => intro n h; omega
  | succ fuel ih =>
    intro n h
    by_cases h10 : n < 10
    · rw [natDigitsAux, if_pos h10]
      show 10 * 0 + digitVal (digitChar n) = n
      rw [digitVal_digitChar n h10]
      omega
    · rw [natDigitsAux, if_neg h10]
      rw [digitsVal_append_digit]
      have hdiv : n / 10 < fuel := by
        have := Nat.div_lt_self (by omega : 0 < n) (by omega : 1 < 10)
        omega
      rw [ih (n / 10) hdiv, digitVal_digitChar (n % 10) (Nat.mod_lt n (by omega))]
      omega

theorem natDigits_val (n : Nat) : digitsVal (natDigits n) = n :=
  natDigitsAux_val (n + 1) n (Nat.lt_succ_self n)

theorem generate_provider_id_inj (a b : Nat)
    (h : generate_provider_id a = generate_provider_id b) : a = b := by
  unfold generate_provider_id at h
  have h2 : natDigits a = natDigits b := List.append_cancel_left h
  have h3 := congrArg digitsVal h2
  rwa [natDigits_val, natDigits_val] at h3

/-! ## Helper lemmas: matcher -/

theorem scanModels_exact (req : Str) (p : Provider) :
    ∀ ms best sel, best < 2 → (∃ m ∈ ms, m.name = req) →
      scanModels req p ms best sel = (2, some p) := by
  intro ms
  induction ms with
  | nil =>
    intro best sel _ hex
    simp at hex
  | cons m rest ih =>
    intro best sel hb hex
    by_cases hm : m.name = req
    · rw [scanModels, if_pos ⟨hm, hb⟩]
    · have hex' : ∃ m' ∈ rest, m'.name = req := by
        rcases hex with ⟨m', hmem, hname⟩
        rcases List.mem_cons.mp hmem with h1 | h2
        · exact absurd (h1 ▸ hname) hm
        · exact ⟨m', h2, hname⟩
      rw [scanModels, if_neg (fun hcon => hm hcon.1)]
      split_ifs with h2 h3
      · exact ih 1 (some p) (by omega) hex'
      · exact ih 1 (some p) (by omega) hex'
      · exact ih best sel hb hex'

theorem scanModels_no_exact (req : Str) (p : Provider) :
    ∀ ms best sel, (∀ m ∈ ms, m.name ≠ req) → best ≤ 1 →
      (scanModels req p ms best sel).1 ≤ 1 := by
  intro ms
  induction ms with
  | nil =>
    intro best sel _ hb
    simpa [scanModels] using hb
  | cons m rest ih =>
    intro best sel hne hb
    have hm : m.name ≠ req := hne m (List.mem_cons_self m rest)
    have hne' : ∀ m' ∈ rest, m'.name ≠ req :=
      fun m' hm' => hne m' (List.mem_cons_of_mem m hm')
    rw [scanModels, if_neg (fun hcon => hm hcon.1)]
    split_ifs with h2 h3
    · exact ih 1 (some p) hne' (by omega)
    · exact ih 1 (some p) hne' (by omega)
    · exact ih best sel hne' hb

theorem scanModels_level (req : Str) (p : Provider) :
    ∀ ms best sel, best ≤ 1 →
      scanModels req p ms best sel = (2, some p) ∨
        (scanModels req p ms best sel).1 ≤ 1 := by
  intro ms
  induction ms with
  | nil =>
    intro best sel hb
    right
    simpa [scanModels] using hb
  | cons m rest ih =>
    intro best sel hb
    rw [scanModels]
    split_ifs with h1 h2 h3
    · left; rfl
    · exact ih 1 (some p) (by omega)
    · exact ih 1 (some p) (by omega)
    · exact ih best sel hb

theorem scanModels_sel (req : Str) (p : Provider) :
    ∀ ms best sel q, (scanModels req p ms best sel).2 = some q →
      q = p ∨ sel = some q := by
  intro ms
  induction ms with
  | nil =>
    intro best sel q h
    right
    simpa [scanModels] using h
  | cons m rest ih =>
    intro best sel q h
    rw [scanModels] at h
    split_ifs at h with h1 h2 h3
    · left
      simpa using h.symm
    · rcases ih 1 (some p) q h with hqp | hsel
      · exact Or.inl hqp
      · exact Or.inl (Option.some.inj hsel).symm
    · rcases ih 1 (some p) q h with hqp | hsel
      · exact Or.inl hqp
      · exact Or.inl (Option.some.inj hsel).symm
    · exact ih best sel q h

theorem selectLoop_first_exact (req : Str) :
    ∀ pre (p : Provider) post best sel, best ≤ 1 →
      eligibleP p = true → hasExact req p = true →
      (∀ q ∈ pre, eligibleP q = true → hasExact req q = false) →
      selectLoop req (pre ++ p :: post) best sel = (2, some p) := by
  intro pre
  induction pre with
  | nil =>
    intro p post best sel hb hel hex _
    have hlt : p.current_load < p.max_clients := by
      simpa [eligibleP] using hel
    have hexm : ∃ m ∈ p.models, m.name = req := by
      simpa [hasExact] using hex
    have hr : scanModels req p p.models best sel = (2, some p) :=
      scanModels_exact req p p.models best sel (by omega) hexm
    rw [List.nil_append, selectLoop, if_neg (by omega), hr]
    simp
  | cons q pre' ih =>
    intro p post best sel hb hel hex hpre
    rw [List.cons_append, selectLoop]
    by_cases hq : eligibleP q = true
    · have hqlt : q.current_load < q.max_clients := by
        simpa [eligibleP] using hq
      have hqex : hasExact req q = false := hpre q (List.mem_cons_self q pre') hq
      have hnone : ∀ m ∈ q.models, m.name ≠ req := by
        intro m hm hcontra
        have : hasExact req q = true := by
          simp only [hasExact, List.any_eq_true, decide_eq_true_eq]
          exact ⟨m, hm, hcontra⟩
        rw [this] at hqex
        cases hqex
      have hr1 : (scanModels req q q.models best sel).1 ≤ 1 :=
        scanModels_no_exact req q q.models best sel hnone hb
      rw [if_neg (by omega), if_neg (by omega)]
      exact ih p post _ _ hr1 hel hex
        (fun q' hq' => hpre q' (List.mem_cons_of_mem q hq'))
    · have hge : q.max_clients ≤ q.current_load := by
        simp only [eligibleP, decide_eq_true_eq] at hq
        omega
      rw [if_pos hge]
      exact ih p post best sel hb hel hex
        (fun q' hq' => hpre q' (List.mem_cons_of_mem q hq'))

theorem selectLoop_level_one (req : Str) :
    ∀ ps best sel, best ≤ 1 →
      (∀ q, sel = some q → eligibleP q = true ∧ hasExact req q = false) →
      ∀ p, selectLoop req ps best sel = (1, some p) →
        eligibleP p = true ∧ hasExact req p = false := by
  intro ps
  induction ps with
  | nil =>
    intro best sel hb hinv p h
    rw [selectLoop] at h
    have h2 : sel = some p := congrArg Prod.snd h
    exact hinv p h2
  | cons q rest ih =>
    intro best sel hb hinv p h
    rw [selectLoop] at h
    by_cases hq : q.max_clients ≤ q.current_load
    · rw [if_pos hq] at h
      exact ih best sel hb hinv p h
    · rw [if_neg hq] at h
      by_cases h2 : (scanModels req q q.models best sel).1 = 2
      · rw [if_pos h2] at h
        have hfst : (scanModels req q q.models best sel).1 = 1 := congrArg Prod.fst h
        omega
      · rw [if_neg h2] at h
        have hr1 : (scanModels req q q.models best sel).1 ≤ 1 := by
          rcases scanModels_level req q q.models best sel hb with hcase | hcase
          · rw [hcase] at h2
            simp at h2
          · exact hcase
        have hinv' : ∀ q', (scanModels req q q.models best sel).2 = some q' →
            eligibleP q' = true ∧ hasExact req q' = false := by
          intro q' hq'
          rcases scanModels_sel req q q.models best sel q' hq' with rfl | hold
          · refine ⟨by simp only [eligibleP, decide_eq_true_eq]; omega, ?_⟩
            by_contra hcontra
            have hextrue : hasExact req q' = true := by
              cases hx : hasExact req q'
              · exact absurd hx hcontra
              · rfl
            have hexm : ∃ m ∈ q'.models, m.name = req := by
              simpa [hasExact] using hextrue
            have := scanModels_exact req q' q'.models best sel (by omega) hexm
            rw [this] at h2
            simp at h2
          · exact hinv q' hold
        exact ih _ _ hr1 hinv' p h

/-! ## Helper lemmas: catalog and fallback -/

theorem gam_filter_aux :
    ∀ (ps : List Provider) (acc : List ModelSummary),
      ps.foldl gamStep acc = (ps.filter eligibleP).foldl gamStep acc := by
  intro ps
  induction ps with
  | nil => intro acc; rfl
  | cons p rest ih =>
    intro acc
    by_cases h : p.current_load < p.max_clients
    · have he : eligibleP p = true := by simpa [eligibleP]
      rw [List.filter_cons_of_pos he, List.foldl_cons, List.foldl_cons]
      exact ih (gamStep acc p)
    · have he : eligibleP p = false := by
        simp only [eligibleP, decide_eq_false_iff_not]
        exact h
      rw [List.filter_cons_of_neg (by simp [he]), List.foldl_cons]
      have hstep : gamStep acc p = acc := by rw [gamStep, if_neg h]
      rw [hstep]
      exact ih acc

theorem baseOf_of_no_colon (s : Str) (h : hasColon s = false) : baseOf s = s := by
  induction s with
  | nil => rfl
  | cons c t ih =>
    simp only [hasColon, List.any_cons, Bool.or_eq_false_iff, decide_eq_false_iff_not] at h
    rw [baseOf, List.takeWhile_cons, if_pos (by simpa using h.1)]
    have ht : baseOf t = t := ih (by simpa [hasColon] using h.2)
    rw [baseOf] at ht
    rw [ht]

/-! ## Claim theorems -/

/-- C1: for every completions request and registry state, an exact (level-2)
match on an eligible provider always outranks a base-name (level-1) match on
any other eligible provider regardless of load ratio, and the first exact
match in ranked order wins the scan; in particular with P1(load 1, cap 4,
`A:tag`) and P2(load 0, cap 4, `A:tag2`), requesting `A:tag` selects P1. -/
theorem C1_exact_match_priority :
    (∀ req ps pre (p : Provider) post,
       rankProviders ps = pre ++ p :: post →
       eligibleP p = true → hasExact req p = true →
       (∀ q ∈ pre, eligibleP q = true → hasExact req q = false) →
       select_provider req ps = (2, some p)) ∧
    select_provider "A:tag".data [exP1, exP2] = (2, some exP1) := by
  constructor
  · intro req ps pre p post hrank hel hex hpre
    rw [select_provider, hrank]
    exact selectLoop_first_exact req pre p post 0 none (by omega) hel hex hpre
  · decide

/-- C1 witness: the general part applied to the ranked order `[P2, P1]`,
whose first eligible exact-match provider is P1. -/
theorem C1_exact_match_priority_witness :
    select_provider "A:tag".data [exP2, exP1] = (2, some exP1) :=
  C1_exact_match_priority.1 "A:tag".data [exP2, exP1] [exP2] exP1 []
    (by decide) (by decide) (by decide) (by decide)

/-- C2: a dispatch attempt leaves the provider's load at its pre-dispatch
value on every exit path (success, request exception, other exception), on a
failed attempt the caller receives a fallback-sourced response, and that
response does not depend on the low-level transport error message. -/
theorem C2_load_release_balanced :
    (∀ p net env prompt model pnet,
       (dispatch_to_provider p net env prompt model pnet).1.current_load =
         p.current_load) ∧
    (∀ p env prompt model pnet msg, ∃ r,
       (dispatch_to_provider p (.requestExc msg) env prompt model pnet).2 =
         CompResponse.fromFallback r) ∧
    (∀ p env prompt model pnet m1 m2,
       dispatch_to_provider p (.requestExc m1) env prompt model pnet =
         dispatch_to_provider p (.requestExc m2) env prompt model pnet) ∧
    (∀ p env prompt model pnet m1 m2,
       dispatch_to_provider p (.otherExc m1) env prompt model pnet =
         dispatch_to_provider p (.otherExc m2) env prompt model pnet) := by
  refine ⟨?_, ?_, ?_, ?_⟩
  · intro p net env prompt model pnet
    cases net <;> simp [dispatch_to_provider]
  · intro p env prompt model pnet msg
    exact ⟨_, rfl⟩
  · intro p env prompt model pnet m1 m2
    rfl
  · intro p env prompt model pnet m1 m2
    rfl

/-- C3 counterexample: `strip_think_blocks` is not idempotent — deleting a
block can splice the surrounding text into a fresh marker pair, which only a
second pass removes. -/
theorem C3_strip_not_idempotent_cex :
    strip_think_blocks (strip_think_blocks "<thi<think>x</think>nk>y</think>".data) ≠
      strip_think_blocks "<thi<think>x</think>nk>y</think>".data := by
  decide

/-- C3 (amended): `strip_think_blocks` is idempotent on every input whose
once-stripped result contains no further removable reasoning block (in
general a deletion can splice text into a new marker pair, so idempotence
fails), and the multi-line example strips to `ab`. -/
theorem C3_strip_idempotent_amended (t : Str) :
    (subThink (strip_think_blocks t) = strip_think_blocks t →
       strip_think_blocks (strip_think_blocks t) = strip_think_blocks t) ∧
    strip_think_blocks "a<think>ignored across\nlines</think>b".data = "ab".data := by
  constructor
  · intro h
    show pyStrip (subThink (strip_think_blocks t)) = strip_think_blocks t
    rw [h]
    exact pyStrip_idem (subThink t)
  · decide

/-- C3 witness: the amended idempotence applied to a block-free input. -/
theorem C3_strip_idempotent_witness :
    strip_think_blocks (strip_think_blocks "ab".data) = strip_think_blocks "ab".data ∧
    strip_think_blocks "a<think>ignored across\nlines</think>b".data = "ab".data :=
  ⟨(C3_strip_idempotent_amended "ab".data).1 (by decide),
   (C3_strip_idempotent_amended "zz".data).2⟩

/-- C4 counterexample: the outbound payload contains `options` even when the
request omits it (the source defaults it to the empty dict, which survives
the `None` filter). -/
theorem C4_options_always_present_cex :
    reqNoOpts.options = none ∧
      (PKey.options, PVal.opts []) ∈ ollama_payload reqNoOpts := by
  decide

/-- C4 (amended): the outbound payload always contains the model name, the
prompt, the stream flag (defaulting to false) and `options` (defaulting to
the empty mapping); each of `system`, `template`, `context`, `format` is in
the payload exactly when it is present in the request. -/
theorem C4_payload_fields_amended (d : CompReq) :
    (PKey.model, PVal.str d.model) ∈ ollama_payload d ∧
    (PKey.prompt, PVal.str d.prompt) ∈ ollama_payload d ∧
    (PKey.stream, PVal.bool (d.stream.getD false)) ∈ ollama_payload d ∧
    (PKey.options, PVal.opts (d.options.getD [])) ∈ ollama_payload d ∧
    (∀ s, (PKey.system, PVal.str s) ∈ ollama_payload d ↔ d.system = some s) ∧
    (∀ s, (PKey.template, PVal.str s) ∈ ollama_payload d ↔ d.template = some s) ∧
    (∀ c, (PKey.context, PVal.ctx c) ∈ ollama_payload d ↔ d.context = some c) ∧
    (∀ s, (PKey.format, PVal.str s) ∈ ollama_payload d ↔ d.format = some s) := by
  obtain ⟨pr, mo, st, op, sy, te, co, fo⟩ := d
  cases sy <;> cases te <;> cases co <;> cases fo <;>
    simp [ollama_payload, rawOllamaPayload, eq_comm]

/-- C5: the capacity a successful registration stores is the resolution of
the request's explicit `max_clients` and `vram_gb`; an explicit positive
`max_clients` wins, otherwise the tiers 16→8, 8→4, 4→2, else 1 apply,
with the spec's concrete instances. -/
theorem C5_capacity_resolution :
    (∀ st req st' pid, join_pool st req = (st', Except.ok pid) →
       ∃ p ∈ st'.providers, p.id = pid ∧
         p.max_clients = resolve_max_clients req.max_clients req.vram_gb) ∧
    (∀ (m : Int) vram, 0 < m → resolve_max_clients (some m) vram = m.toNat) ∧
    (∀ mcu vram, (∀ m, mcu = some m → m ≤ 0) →
       ((∀ v : Int, vram = some v → 16 ≤ v → resolve_max_clients mcu vram = 8) ∧
        (∀ v : Int, vram = some v → 8 ≤ v → v < 16 → resolve_max_clients mcu vram = 4) ∧
        (∀ v : Int, vram = some v → 4 ≤ v → v < 8 → resolve_max_clients mcu vram = 2) ∧
        (∀ v : Int, vram = some v → v < 4 → resolve_max_clients mcu vram = 1) ∧
        (vram = none → resolve_max_clients mcu vram = 1))) ∧
    (resolve_max_clients none (some 20) = 8 ∧ resolve_max_clients none (some 10) = 4 ∧
     resolve_max_clients none (some 5) = 2 ∧ resolve_max_clients none (some 1) = 1 ∧
     resolve_max_clients none none = 1 ∧ resolve_max_clients (some 3) (some 20) = 3) := by
  refine ⟨?_, ?_, ?_, by decide⟩
  · intro st req st' pid h
    rw [join_pool] at h
    split_ifs at h with h1 h2 h3
    · simp at h
    · simp at h
    · simp at h
    · simp only [Prod.mk.injEq, Except.ok.injEq] at h
      obtain ⟨hst, hpid⟩ := h
      subst hst
      subst hpid
      refine ⟨{ id := generate_provider_id (st.counter + 1)
              , ollama_base_url := req.ollama_base_url.getD []
              , models := (req.models.getD []).map
                  (fun m => { name := m.name.getD [], details := m.details })
              , gpu_info := req.gpu_info
              , vram_gb := req.vram_gb
              , max_clients := resolve_max_clients req.max_clients req.vram_gb
              , current_load := 0 }, ?_, rfl, rfl⟩
      simp
  · intro m vram hm
    simp [resolve_max_clients, hm]
  · intro mcu vram hmcu
    have hres : resolve_max_clients mcu vram = vramTier vram := by
      cases mcu with
      | none => rfl
      | some m =>
        have hm := hmcu m rfl
        simp only [resolve_max_clients]
        rw [if_neg (by omega)]
    refine ⟨?_, ?_, ?_, ?_, ?_⟩
    · intro v hv h16
      subst hv
      rw [hres]
      simp only [vramTier]
      split_ifs <;> omega
    · intro v hv h8 h16
      subst hv
      rw [hres]
      simp only [vramTier]
      split_ifs <;> omega
    · intro v hv h4 h8
      subst hv
      rw [hres]
      simp only [vramTier]
      split_ifs <;> omega
    · intro v hv h4
      subst hv
      rw [hres]
      simp only [vramTier]
      split_ifs <;> omega
    · intro hv
      subst hv
      rw [hres]
      rfl

/-- C5 witness: a concrete successful registration (vram 20, no explicit
capacity) stores capacity 8, and the explicit-capacity instance. -/
theorem C5_capacity_resolution_witness :
    (∃ p ∈ (join_pool regEmpty goodReq).1.providers,
       p.id = generate_provider_id 1 ∧
       p.max_clients = resolve_max_clients goodReq.max_clients goodReq.vram_gb) ∧
    resolve_max_clients (some 3) (some 20) = (3 : Int).toNat ∧
    resolve_max_clients none (some 20) = 8 := by
  refine ⟨C5_capacity_resolution.1 regEmpty goodReq (join_pool regEmpty goodReq).1
      (generate_provider_id 1) rfl,
    C5_capacity_resolution.2.1 3 (some 20) (by decide), ?_⟩
  exact (C5_capacity_resolution.2.2.1 none (some 20)
    (by intro m hm; cases hm)).1 20 rfl (by decide)

/-- C6: the model catalog counts only providers whose load is strictly
below capacity (at/over-capacity providers contribute nothing to any
count), and in the concrete scenario with two eligible providers offering
`A:tag` plus one at capacity, the count is 2 and the details come from the
first eligible provider seen. -/
theorem C6_catalog_capacity_aware :
    (∀ ps, get_available_models ps = get_available_models (ps.filter eligibleP)) ∧
    (get_available_models [pOver, pEl1, pEl2]).find?
        (fun s => decide (s.name = "A:tag".data)) =
      some { name := "A:tag".data, providers_available := 2
           , details := [("k".data, "v1".data)] } := by
  constructor
  · intro ps
    rw [get_available_models, get_available_models]
    exact gam_filter_aux ps []
  · decide

/-- C7: registration rejects, leaving the registry unchanged, every request
with an absent/empty/non-http(s) base URL, an absent/empty model list, or a
model entry without a name; and a successful registration returns the id
freshly minted from the bumped counter, distinct from every id issued
before. -/
theorem C7_validation_and_fresh_id :
    (∀ st req, badJoinInput req = true →
       ∃ e, join_pool st req = (st, Except.error e)) ∧
    (∀ st req st' pid, join_pool st req = (st', Except.ok pid) →
       pid = generate_provider_id (st.counter + 1) ∧
       st'.counter = st.counter + 1 ∧
       ∀ k, k ≤ st.counter → pid ≠ generate_provider_id k) := by
  constructor
  · intro st req hbad
    rw [join_pool]
    split_ifs with h1 h2 h3
    · exact ⟨_, rfl⟩
    · exact ⟨_, rfl⟩
    · exact ⟨_, rfl⟩
    · exfalso
      simp only [Bool.not_eq_true, Bool.not_eq_false, Bool.or_eq_false_iff] at h1 h2 h3
      simp [badJoinInput, h1.1, h1.2, h2, h3] at hbad
  · intro st req st' pid h
    rw [join_pool] at h
    split_ifs at h with h1 h2 h3
    · simp at h
    · simp at h
    · simp at h
    · simp only [Prod.mk.injEq, Except.ok.injEq] at h
      obtain ⟨hst, hpid⟩ := h
      subst hst
      subst hpid
      refine ⟨rfl, rfl, ?_⟩
      intro k hk hcontra
      have := generate_provider_id_inj _ _ hcontra
      omega

/-- C7 witness: the all-absent request is rejected on the empty registry,
and the first successful registration issues `provider_1`. -/
theorem C7_validation_and_fresh_id_witness :
    (∃ e, join_pool regEmpty badReq = (regEmpty, Except.error e)) ∧
    (generate_provider_id 1 = generate_provider_id (regEmpty.counter + 1) ∧
     (join_pool regEmpty goodReq).1.counter = regEmpty.counter + 1 ∧
     ∀ k, k ≤ regEmpty.counter → generate_provider_id 1 ≠ generate_provider_id k) := by
  constructor
  · exact C7_validation_and_fresh_id.1 regEmpty badReq (by decide)
  · exact C7_validation_and_fresh_id.2 regEmpty goodReq
      (join_pool regEmpty goodReq).1 (generate_provider_id 1) rfl

/-- C8: the fallback client refuses with a 503 configuration error and no
outbound call whenever the credential is absent or the unset placeholder;
with a credential set, the outbound call's model identifier is the requested
name cut at the first colon. -/
theorem C8_fallback_credential_and_model :
    (∀ env prompt model net, (env = none ∨ env = some placeholderKey) →
       call_pollinations_api env prompt model net =
         (none, PRes.failure "Pollinations API key not configured".data none 503)) ∧
    (∀ (k : Str) prompt model net, k ≠ placeholderKey →
       ∃ r, call_pollinations_api (some k) prompt model net =
         (some { model := baseOf model, prompt := prompt }, r)) := by
  constructor
  · intro env prompt model net henv
    rcases henv with rfl | rfl
    · rw [call_pollinations_api.eq_def,
        if_pos (show find_pollinations_api_key none = placeholderKey from rfl)]
    · rw [call_pollinations_api.eq_def,
        if_pos (show find_pollinations_api_key (some placeholderKey) = placeholderKey from rfl)]
  · intro k prompt model net hk
    have hne : ¬ (find_pollinations_api_key (some k) = placeholderKey) := by
      simpa [find_pollinations_api_key] using hk
    have hm : (if hasColon model then baseOf model else model) = baseOf model := by
      cases hc : hasColon model
      · simpa using (baseOf_of_no_colon model hc).symm
      · simp
    refine ⟨match net with
      | PollNet.ok shape status => normalizePoll shape status
      | PollNet.httpError status detail => PRes.failure detail (some "pollinations".data) status
      | PollNet.netError msg => PRes.failure msg (some "pollinations".data) 500, ?_⟩
    rw [call_pollinations_api.eq_def, if_neg hne, hm]

/-- C8 witness: the unset credential refuses before any call, and with a
credential the call for `A:tag` goes out as model `A`. -/
theorem C8_fallback_credential_and_model_witness :
    call_pollinations_api none "p".data "A:tag".data (PollNet.netError "x".data) =
      (none, PRes.failure "Pollinations API key not configured".data none 503) ∧
    ∃ r, call_pollinations_api (some "K".data) "p".data "A:tag".data
        (PollNet.netError "x".data) =
      (some { model := baseOf "A:tag".data, prompt := "p".data }, r) :=
  ⟨C8_fallback_credential_and_model.1 none "p".data "A:tag".data
      (PollNet.netError "x".data) (Or.inl rfl),
   C8_fallback_credential_and_model.2 "K".data "p".data "A:tag".data
      (PollNet.netError "x".data) (by decide)⟩

/-- C9: the catalog counts model-list entries, not distinct providers — a
single under-capacity provider listing `A:tag` twice yields
`providers_available = 2`, with the details of the first entry. -/
theorem C9_counts_entries_not_providers :
    get_available_models [pDup] =
      [{ name := "A:tag".data, providers_available := 2
       , details := [("k".data, "v1".data)] }] := by
  decide

/-- C10: whenever the matcher selects a provider at base-name (level-1)
match only, the outbound payload still carries the caller's requested model
name verbatim — the selected provider is eligible yet offers no model with
exactly that name, so the payload's model field is not the provider's
matched name. -/
theorem C10_verbatim_model_name :
    ∀ (d : CompReq) (ps : List Provider) (p : Provider),
      select_provider d.model ps = (1, some p) →
      (PKey.model, PVal.str d.model) ∈ ollama_payload d ∧
      eligibleP p = true ∧ hasExact d.model p = false := by
  intro d ps p h
  rw [select_provider] at h
  refine ⟨?_, selectLoop_level_one d.model (rankProviders ps) 0 none (by omega)
    (by intro q hq; cases hq) p h⟩
  exact List.mem_filterMap.mpr
    ⟨(PKey.model, some (PVal.str d.model)), by simp [rawOllamaPayload], rfl⟩

/-- C10 witness: requesting `A:tag` against the single provider offering
only `A:other` selects it at level 1, and the payload still says `A:tag`. -/
theorem C10_verbatim_model_name_witness :
    (PKey.model, PVal.str reqNoOpts.model) ∈ ollama_payload reqNoOpts ∧
    eligibleP pPre = true ∧ hasExact reqNoOpts.model pPre = false :=
  C10_verbatim_model_name reqNoOpts [pPre] pPre (by decide)

end Andy
